import Mathlib

/-!
Verification of the UMB weather-station protocol driver (WS_UMB.py).

Bytes are modelled as natural numbers in a `List Nat`; the Python byte
strings of the source become such lists.  Python's arbitrary-precision
integers are `Nat`/`Int`; `int.to_bytes(k, 'little')` (which raises
`OverflowError` when the value does not fit) is modelled by the fallible
`toBytesLE?`, and Python slice expressions by `pySlice`, which reproduces
Python's clamping and negative-index semantics.  Each definition mirrors
one function or code path of WS_UMB.py; line numbers refer to that file.
-/

namespace LufftUMB

/-- Resolve one Python slice endpoint against a list of length `n`:
negative indices count from the end, and both directions clamp to `[0, n]`. -/
def pyIdx (n : Nat) (i : Int) : Nat :=
  if i < 0 then n - (-i).toNat else min i.toNat n

/-- Python slice `l[a:b]` (step 1) on a byte list. -/
def pySlice (l : List Nat) (a b : Int) : List Nat :=
  (l.drop (pyIdx l.length a)).take (pyIdx l.length b - pyIdx l.length a)

/-- Python `int.from_bytes(l, 'little')`; the empty slice yields 0. -/
def fromBytesLE : List Nat → Nat
  | [] => 0
  | b :: rest => b + 256 * fromBytesLE rest

/-- Little-endian byte encoding of `n` on exactly `k` bytes (truncating). -/
def leBytes : Nat → Nat → List Nat
  | 0, _ => []
  | k + 1, n => n % 256 :: leBytes k (n / 256)

/-- Python `int(n).to_bytes(k, 'little')`: `OverflowError` (modelled as
`none`) when `n` does not fit in `k` bytes. -/
def toBytesLE? (k n : Nat) : Option (List Nat) :=
  if n < 256 ^ k then some (leBytes k n) else none

/-- One iteration of the loop body of `calc_next_crc_byte`
(WS_UMB.py lines 115-122), acting on the pair (crc_buff, nextbyte). -/
def crc_round (p : Nat × Nat) : Nat × Nat :=
  let crc := p.1
  let b := p.2
  let x16 := if (crc &&& 1) ^^^ (b &&& 1) ≠ 0 then 0x8408 else 0
  ((crc >>> 1) ^^^ x16, b >>> 1)

/-- `calc_next_crc_byte` (WS_UMB.py lines 114-123): 8 rounds over one byte. -/
def calc_next_crc_byte (crc_buff nextbyte : Nat) : Nat :=
  (crc_round^[8] (crc_buff, nextbyte)).1

/-- `calc_crc16` (WS_UMB.py lines 125-129): fold the per-byte step over the
data, seeded with 0xFFFF. -/
def calc_crc16 (data : List Nat) : Nat :=
  data.foldl calc_next_crc_byte 0xFFFF

/-- Modelled from the spec: one CRC iteration as worded in §4.1 — test bit 0
of the accumulator XOR bit 0 of the working byte; if set the accumulator
becomes `(acc >>> 1) ^^^ 0x8408`, otherwise `acc >>> 1`; the working byte
shifts right by one. -/
def crcRoundSpec (p : Nat × Nat) : Nat × Nat :=
  let acc := p.1
  let b := p.2
  let acc' := if (acc.testBit 0 ≠ b.testBit 0) then (acc >>> 1) ^^^ 0x8408 else acc >>> 1
  (acc', b >>> 1)

/-- Modelled from the spec: 8 iterations of `crcRoundSpec` for one byte. -/
def crcByteSpec (acc b : Nat) : Nat :=
  (crcRoundSpec^[8] (acc, b)).1

/-- Modelled from the spec: seed 0xFFFF, process every byte in order (§4.1). -/
def crc16Spec (data : List Nat) : Nat :=
  data.foldl crcByteSpec 0xFFFF

/-- Two's-complement reading of a `width`-byte little-endian value, as
`struct.unpack` does for the signed formats. -/
def toSigned (width n : Nat) : Int :=
  if n < 2 ^ (8 * width - 1) then (n : Int) else (n : Int) - 2 ^ (8 * width)

/-- A decoded channel value.  Integer tags give a Python `int`; the float
tags are kept as their raw little-endian bit patterns, which determine the
IEEE-754 value `struct.unpack` would build. -/
inductive UMBValue where
  | int (i : Int)
  | float32 (bits : Nat)
  | float64 (bits : Nat)
deriving DecidableEq

/-- The slice handed to `struct.unpack`: `rx[p : p + width]`; `struct.error`
(modelled as `none`) when it does not hold exactly `width` bytes. -/
def unpackBytes (rx : List Nat) (p : Int) (width : Nat) : Option (List Nat) :=
  let s := pySlice rx p (p + width)
  if s.length = width then some s else none

/-- The type-tag dispatch of WS_UMB.py (lines 302-321 and 216-232): eight
recognized tags 16-23; any other tag leaves the default `value = 0`. -/
def decode_value (rx : List Nat) (p : Int) (tag : Nat) : Option UMBValue :=
  if tag = 16 then (unpackBytes rx p 1).map fun s => .int (fromBytesLE s)
  else if tag = 17 then (unpackBytes rx p 1).map fun s => .int (toSigned 1 (fromBytesLE s))
  else if tag = 18 then (unpackBytes rx p 2).map fun s => .int (fromBytesLE s)
  else if tag = 19 then (unpackBytes rx p 2).map fun s => .int (toSigned 2 (fromBytesLE s))
  else if tag = 20 then (unpackBytes rx p 4).map fun s => .int (fromBytesLE s)
  else if tag = 21 then (unpackBytes rx p 4).map fun s => .int (toSigned 4 (fromBytesLE s))
  else if tag = 22 then (unpackBytes rx p 4).map fun s => .float32 (fromBytesLE s)
  else if tag = 23 then (unpackBytes rx p 8).map fun s => .float64 (fromBytesLE s)
  else some (.int 0)

/-- The distinct raise sites of the receive path, in source order. -/
inductive RxError where
  | RxChecksum (calculated received : List Nat)
  | RxLength (lengthField : Nat)
  | RxNoStartOfFrame
  | RxWrongVersion
  | RxWrongDestination
  | RxWrongSource
  | RxMissingSTX
  | RxWrongCommand
  | RxWrongCommandVersion
  | RxUnpack
deriving DecidableEq

/-- `calc_crc16(rx_frame[:-3]).to_bytes(2, 'little')` (line 274). -/
def cs_calculated (rx : List Nat) : List Nat :=
  leBytes 2 (calc_crc16 (pySlice rx 0 (-3)))

/-- `rx_frame[-3:-1]` (line 275). -/
def cs_received (rx : List Nat) : List Nat :=
  pySlice rx (-3) (-1)

/-- The validation ladder shared verbatim by `send_request` (lines 273-298)
and `send_request_one_call_multi` (lines 174-199): checksum first, then the
end-of-body position, then the fixed header fields.  `receiver_id % 256`
etc. are the bytes `to_bytes` produced on the transmit side (conversion
succeeded there, so the value was below 256 and `%` is the identity). -/
def frameFieldCheck (receiver_id command command_version : Nat) (rx : List Nat) :
    Option RxError :=
  if cs_calculated rx ≠ cs_received rx then
    some (.RxChecksum (cs_calculated rx) (cs_received rx))
  else
    if pySlice rx (8 + (fromBytesLE (pySlice rx 6 7) : Int))
        (9 + (fromBytesLE (pySlice rx 6 7) : Int)) ≠ [3] then
      some (.RxLength (fromBytesLE (pySlice rx 6 7)))
    else if pySlice rx 0 1 ≠ [1] then some .RxNoStartOfFrame
    else if pySlice rx 1 2 ≠ [0x10] then some .RxWrongVersion
    else if pySlice rx 2 4 ≠ [1, 0xF0] then some .RxWrongDestination
    else if pySlice rx 4 6 ≠ [receiver_id % 256, 0x70] then some .RxWrongSource
    else if pySlice rx 7 8 ≠ [2] then some .RxMissingSTX
    else if pySlice rx 8 9 ≠ [command % 256] then some .RxWrongCommand
    else if pySlice rx 9 10 ≠ [command_version % 256] then some .RxWrongCommandVersion
    else none

/-- The receive half of `send_request` (lines 273-323): validate the frame,
then read the status byte at offset 10, the type tag at offset 13 and the
value bytes from offset 14. -/
def decode_response (receiver_id command command_version : Nat) (rx : List Nat) :
    Except RxError (UMBValue × Nat) :=
  match frameFieldCheck receiver_id command command_version rx with
  | some e => .error e
  | none =>
    let status := fromBytesLE (pySlice rx 10 11)
    let tag := fromBytesLE (pySlice rx 13 14)
    match decode_value rx 14 tag with
    | none => .error .RxUnpack
    | some v => .ok (v, status)

/-- The cursor walk of `send_request_one_call_multi` (lines 201-238):
`index` is the header cursor, `parse_index` the value cursor; each entry
reads status at `index - 3`, type tag at `index`, sub-length at `index - 4`,
unpacks the value at `parse_index`, and advances both cursors by
`sub_len + 1`.  A `struct.error` aborts the whole call (`none`). -/
def multi_walk (rx : List Nat) : Nat → Int → Int → Option (List UMBValue × List Nat)
  | 0, _, _ => some ([], [])
  | n + 1, index, parse_index =>
    let status := fromBytesLE (pySlice rx (index - 3) (index + 1 - 3))
    let tag := fromBytesLE (pySlice rx index (index + 1))
    let sub_len := fromBytesLE (pySlice rx (index - 4) (index + 1 - 4))
    match decode_value rx parse_index tag with
    | none => none
    | some v =>
      match multi_walk rx n (index + (sub_len : Int) + 1) (parse_index + (sub_len : Int) + 1) with
      | none => none
      | some (vs, ss) => some (v :: vs, status :: ss)

/-- The receive half of `send_request_one_call_multi` (lines 174-238):
the same validation ladder, then the cursor walk starting at offsets 16
(header cursor) and 17 (value cursor), one entry per requested channel. -/
def decode_multi_response (receiver_id command command_version n_channels : Nat)
    (rx : List Nat) : Except RxError (List UMBValue × List Nat) :=
  match frameFieldCheck receiver_id command command_version rx with
  | some e => .error e
  | none =>
    match multi_walk rx n_channels 16 17 with
    | none => .error .RxUnpack
    | some r => .ok r

/-- The FULLPAYLOAD accumulation loop (lines 146-150): each channel is
appended as 2 little-endian bytes; any channel above 0xFFFF raises. -/
def channelsBytes : List Nat → Option (List Nat)
  | [] => some []
  | ch :: rest =>
    match toBytesLE? 2 ch, channelsBytes rest with
    | some b, some r => some (b ++ r)
    | _, _ => none

/-- The transmit half of `send_request` (lines 240-260): the assembled
`tx_frame`, or `none` when one of the `to_bytes` conversions overflows
(in which case nothing is written to the serial port). -/
def send_request_tx (receiver_id command command_version : Nat) (payload : List Nat) :
    Option (List Nat) :=
  (toBytesLE? 1 receiver_id).bind fun TO =>
  (toBytesLE? 1 (2 + payload.length)).bind fun LEN =>
  (toBytesLE? 1 command).bind fun COMMAND =>
  (toBytesLE? 1 command_version).bind fun CV =>
  let frame := [1, 0x10] ++ TO ++ [0x70, 1, 0xF0] ++ LEN ++ [2] ++ COMMAND ++ CV ++ payload ++ [3]
  some (frame ++ leBytes 2 (calc_crc16 frame) ++ [4])

/-- The transmit half of `send_request_one_call_multi` (lines 131-164):
payload is the channel count byte followed by the per-channel bytes, and
the length byte is `3` plus the number of channel bytes. -/
def send_request_one_call_multi_tx (receiver_id command command_version : Nat)
    (channels : List Nat) : Option (List Nat) :=
  (toBytesLE? 1 receiver_id).bind fun TO =>
  (toBytesLE? 1 channels.length).bind fun NUMBER =>
  (channelsBytes channels).bind fun chanBytes =>
  (toBytesLE? 1 (3 + chanBytes.length)).bind fun LEN =>
  (toBytesLE? 1 command).bind fun COMMAND =>
  (toBytesLE? 1 command_version).bind fun CV =>
  let FULLPAYLOAD := NUMBER ++ chanBytes
  let frame := [1, 0x10] ++ TO ++ [0x70, 1, 0xF0] ++ LEN ++ [2] ++ COMMAND ++ CV
                 ++ FULLPAYLOAD ++ [3]
  some (frame ++ leBytes 2 (calc_crc16 frame) ++ [4])

/-- The transmit side of `onlineDataQuery` (line 384): command 35,
command-version 16, payload `int(channel).to_bytes(2, 'little')`. -/
def onlineDataQuery_tx (channel receiver_id : Nat) : Option (List Nat) :=
  (toBytesLE? 2 channel).bind fun p => send_request_tx receiver_id 35 16 p

/-- The transmit side of `onlineDataQueryMultiOneCall` (line 400):
command 47, command-version 16. -/
def onlineDataQueryMultiOneCall_tx (channels : List Nat) (receiver_id : Nat) :
    Option (List Nat) :=
  send_request_one_call_multi_tx receiver_id 47 16 channels

/-- Header-cursor position of the k-th entry of the walk, started at `i`:
each step adds the sub-length read four bytes below the cursor, plus one. -/
def headerCursorFrom (rx : List Nat) : Int → Nat → Int
  | i, 0 => i
  | i, k + 1 =>
    headerCursorFrom rx (i + (fromBytesLE (pySlice rx (i - 4) (i + 1 - 4)) : Int) + 1) k

/-- Value-cursor position of the k-th entry: starts at `p` and advances by
the same `sub_len + 1` strides, the sub-length being read at the header
cursor. -/
def valueCursorFrom (rx : List Nat) : Int → Int → Nat → Int
  | _, p, 0 => p
  | i, p, k + 1 =>
    valueCursorFrom rx (i + (fromBytesLE (pySlice rx (i - 4) (i + 1 - 4)) : Int) + 1)
      (p + (fromBytesLE (pySlice rx (i - 4) (i + 1 - 4)) : Int) + 1) k

/-- Header cursor of the k-th entry, from its start offset 16. -/
def headerCursor (rx : List Nat) (k : Nat) : Int := headerCursorFrom rx 16 k

/-- Value cursor of the k-th entry, from its start offset 17. -/
def valueCursor (rx : List Nat) (k : Nat) : Int := valueCursorFrom rx 16 17 k

/-- A well-formed single-channel response: receiver 1, command 35,
command-version 16, status 0, type tag 18, value bytes 113. -/
def rxSingleBody : List Nat :=
  [1, 0x10, 1, 0xF0, 1, 0x70, 8, 2, 35, 16, 0, 113, 0, 18, 113, 0, 3]

/-- `rxSingleBody` completed with its correct checksum and the EOT byte. -/
def rxSingle : List Nat :=
  rxSingleBody ++ leBytes 2 (calc_crc16 rxSingleBody) ++ [4]

/-- `rxSingle` with only its end-of-transmission byte corrupted (4 → 0). -/
def rxSingleBadEOT : List Nat :=
  rxSingleBody ++ leBytes 2 (calc_crc16 rxSingleBody) ++ [0]

/-- A well-formed single-channel response whose status byte is 36
("invalid channel"), otherwise like `rxSingleBody`. -/
def rxStatus36Body : List Nat :=
  [1, 0x10, 1, 0xF0, 1, 0x70, 8, 2, 35, 16, 36, 113, 0, 18, 113, 0, 3]

/-- `rxStatus36Body` completed with its correct checksum and EOT. -/
def rxStatus36 : List Nat :=
  rxStatus36Body ++ leBytes 2 (calc_crc16 rxStatus36Body) ++ [4]

/-- A well-formed, checksum-valid single-channel response whose type tag
byte (offset 13) is 99, outside the recognized range 16-23. -/
def rxTag99Body : List Nat :=
  [1, 0x10, 1, 0xF0, 1, 0x70, 8, 2, 35, 16, 0, 113, 0, 99, 113, 0, 3]

/-- `rxTag99Body` completed with its correct checksum and EOT. -/
def rxTag99 : List Nat :=
  rxTag99Body ++ leBytes 2 (calc_crc16 rxTag99Body) ++ [4]

/-- A well-formed one-call multi response carrying two sub-records:
(status 0, tag 18, value 113) and (status 0, tag 18, value 4630), each with
sub-length 6. -/
def rxMultiBody : List Nat :=
  [1, 0x10, 1, 0xF0, 1, 0x70, 18, 2, 47, 16,
   0, 2, 6, 0, 113, 0, 18, 113, 0, 6, 0, 22, 18, 18, 22, 18, 3]

/-- `rxMultiBody` completed with its correct checksum and EOT. -/
def rxMulti : List Nat :=
  rxMultiBody ++ leBytes 2 (calc_crc16 rxMultiBody) ++ [4]

theorem leBytes_length (k n : Nat) : (leBytes k n).length = k := by
  induction k generalizing n with
  | zero => rfl
  | succ k ih => simp [leBytes, ih]

theorem toBytesLE?_of_lt (k n : Nat) (h : n < 256 ^ k) :
    toBytesLE? k n = some (leBytes k n) := by
  simp [toBytesLE?, h]

theorem toBytesLE?_of_ge (k n : Nat) (h : ¬ n < 256 ^ k) : toBytesLE? k n = none := by
  simp [toBytesLE?, h]

theorem leBytes_one_of_lt (n : Nat) (h : n < 256) : leBytes 1 n = [n] := by
  simp [leBytes, Nat.mod_eq_of_lt h]

theorem channelsBytes_length : ∀ {cs bs : List Nat},
    channelsBytes cs = some bs → bs.length = 2 * cs.length := by
  intro cs
  induction cs with
  | nil =>
    intro bs h
    simp only [channelsBytes, Option.some.injEq] at h
    simp [← h]
  | cons ch rest ih =>
    intro bs h
    simp only [channelsBytes] at h
    cases hb : toBytesLE? 2 ch with
    | none => rw [hb] at h; simp at h
    | some b =>
      cases hr : channelsBytes rest with
      | none => rw [hb, hr] at h; simp at h
      | some r =>
        rw [hb, hr] at h
        simp only [Option.some.injEq] at h
        have hbl : b.length = 2 := by
          by_cases hlt : ch < 256 ^ 2
          · rw [toBytesLE?_of_lt 2 ch hlt] at hb
            cases hb
            exact leBytes_length 2 ch
          · rw [toBytesLE?_of_ge 2 ch hlt] at hb; cases hb
        rw [← h]
        simp only [List.length_append, hbl, ih hr, List.length_cons]
        omega

theorem channelsBytes_of_valid : ∀ {cs : List Nat}, (∀ ch ∈ cs, ch < 65536) →
    channelsBytes cs = some ((cs.map (leBytes 2)).flatten) := by
  intro cs
  induction cs with
  | nil => intro _; rfl
  | cons ch rest ih =>
    intro h
    have h1 : ch < 256 ^ 2 := by
      have := h ch (by simp)
      omega
    have h2 : ∀ c ∈ rest, c < 65536 := fun c hc => h c (by simp [hc])
    simp [channelsBytes, toBytesLE?_of_lt 2 ch h1, ih h2]

theorem join_map_leBytes_length (cs : List Nat) :
    ((cs.map (leBytes 2)).flatten).length = 2 * cs.length := by
  induction cs with
  | nil => rfl
  | cons ch rest ih =>
    simp only [List.map_cons, List.flatten_cons, List.length_append, leBytes_length, ih,
      List.length_cons]
    omega

theorem crc_round_eq_spec : crc_round = crcRoundSpec := by
  funext p
  obtain ⟨c, b⟩ := p
  simp only [crc_round, crcRoundSpec, Nat.and_one_is_mod, Nat.testBit_zero]
  rcases Nat.mod_two_eq_zero_or_one c with hc | hc <;>
    rcases Nat.mod_two_eq_zero_or_one b with hb | hb <;>
      simp [hc, hb]

theorem calc_next_crc_byte_eq_spec : calc_next_crc_byte = crcByteSpec := by
  funext c b
  unfold calc_next_crc_byte crcByteSpec
  rw [crc_round_eq_spec]

/-- Claim C4: `calc_crc16` computes exactly the specified algorithm — seed
0xFFFF; per input byte 8 iterations that test bit 0 of the accumulator XOR
bit 0 of the iteratively right-shifted byte, replacing the accumulator by
`(acc >>> 1) ^^^ 0x8408` when set and by `acc >>> 1` otherwise, shifting
the working byte right each round — and it returns the seed 0xFFFF on the
empty sequence. -/
theorem calc_crc16_matches_spec : calc_crc16 = crc16Spec ∧ calc_crc16 [] = 0xFFFF := by
  refine ⟨?_, rfl⟩
  funext data
  unfold calc_crc16 crc16Spec
  rw [calc_next_crc_byte_eq_spec]

/-- Claim C5: when the payload byte count plus 2 exceeds 255, request
encoding fails (the length-byte conversion overflows) and no frame is
produced for transmission — for the single-channel encoder with its raw
payload, and for the one-call multi encoder, whose payload of `1 + 2·N`
bytes makes the length byte `3 + 2·N`. -/
theorem oversized_request_not_sent (receiver_id command command_version : Nat)
    (payload channels : List Nat)
    (h1 : 255 < 2 + payload.length) (h2 : 255 < 3 + 2 * channels.length) :
    send_request_tx receiver_id command command_version payload = none ∧
    send_request_one_call_multi_tx receiver_id command command_version channels = none := by
  constructor
  · have hnone : toBytesLE? 1 (2 + payload.length) = none :=
      toBytesLE?_of_ge 1 (2 + payload.length) (by simp only [pow_one]; omega)
    cases toBytesLE? 1 receiver_id <;> simp [send_request_tx, hnone]
  · cases hcb : channelsBytes channels with
    | none =>
      cases toBytesLE? 1 receiver_id <;> cases toBytesLE? 1 channels.length <;>
        simp [send_request_one_call_multi_tx, hcb]
    | some bs =>
      have hlen : bs.length = 2 * channels.length := channelsBytes_length hcb
      have hnone : toBytesLE? 1 (3 + bs.length) = none :=
        toBytesLE?_of_ge 1 (3 + bs.length) (by simp only [pow_one, hlen]; omega)
      cases toBytesLE? 1 receiver_id <;> cases toBytesLE? 1 channels.length <;>
        simp [send_request_one_call_multi_tx, hcb, hnone]

theorem pyIdx_le (n : Nat) (i : Int) : pyIdx n i ≤ n := by
  unfold pyIdx
  split <;> omega

theorem pySlice_of_start_full (l : List Nat) (a b : Int)
    (ha : pyIdx l.length a = l.length) : pySlice l a b = [] := by
  unfold pySlice
  rw [ha, List.drop_length, List.take_nil]

theorem pySlice_drop_last3 (body : List Nat) (x y z : Nat) :
    pySlice (body ++ [x, y, z]) 0 (-3) = body := by
  have h1 : pyIdx (body ++ [x, y, z]).length 0 = 0 := by
    simp [pyIdx]
  have h2 : pyIdx (body ++ [x, y, z]).length (-3) = body.length := by
    unfold pyIdx
    rw [if_pos (by norm_num)]
    simp [List.length_append]
  unfold pySlice
  rw [h1, h2, List.drop_zero, Nat.sub_zero, List.take_left]

theorem pySlice_last3_mid (body : List Nat) (x y z : Nat) :
    pySlice (body ++ [x, y, z]) (-3) (-1) = [x, y] := by
  have h2 : pyIdx (body ++ [x, y, z]).length (-3) = body.length := by
    unfold pyIdx
    rw [if_pos (by norm_num)]
    simp [List.length_append]
  have h3 : pyIdx (body ++ [x, y, z]).length (-1) = body.length + 2 := by
    unfold pyIdx
    rw [if_pos (by norm_num)]
    simp [List.length_append]
  unfold pySlice
  rw [h2, h3, List.drop_left, Nat.add_sub_cancel_left]
  rfl

theorem frame_cs_calculated (body : List Nat) (x y z : Nat) :
    cs_calculated (body ++ [x, y, z]) = leBytes 2 (calc_crc16 body) := by
  unfold cs_calculated
  rw [pySlice_drop_last3]

theorem frame_cs_received (body : List Nat) (x y z : Nat) :
    cs_received (body ++ [x, y, z]) = [x, y] := by
  unfold cs_received
  rw [pySlice_last3_mid]

theorem decode_response_checksum_mismatch (receiver_id command command_version : Nat)
    (rx : List Nat) (h : cs_calculated rx ≠ cs_received rx) :
    decode_response receiver_id command command_version rx =
      .error (.RxChecksum (cs_calculated rx) (cs_received rx)) := by
  unfold decode_response frameFieldCheck
  rw [if_pos h]

/-- Claim C6 (amended): decoding recomputes the checksum over all bytes but
the trailing 3 and compares it to the 2 bytes preceding the final byte; on
mismatch it fails with the checksum error carrying both values, so
corrupting either of the two checksum bytes of a well-formed frame makes
decoding fail with the checksum error.  (The end-of-transmission byte is
never inspected, so corrupting it alone does not trigger any error — see
the counterexample theorem.) -/
theorem checksum_trailer_corruption (receiver_id command command_version : Nat)
    (body : List Nat) (c0 c1 c0' c1' e : Nat)
    (hc : leBytes 2 (calc_crc16 body) = [c0, c1])
    (h0 : c0' ≠ c0) (h1 : c1' ≠ c1) :
    (∀ rx, cs_calculated rx ≠ cs_received rx →
        decode_response receiver_id command command_version rx =
          .error (.RxChecksum (cs_calculated rx) (cs_received rx))) ∧
    decode_response receiver_id command command_version (body ++ [c0', c1, e]) =
      .error (.RxChecksum [c0, c1] [c0', c1]) ∧
    decode_response receiver_id command command_version (body ++ [c0, c1', e]) =
      .error (.RxChecksum [c0, c1] [c0, c1']) := by
  refine ⟨fun rx h => decode_response_checksum_mismatch _ _ _ rx h, ?_, ?_⟩
  · have hca : cs_calculated (body ++ [c0', c1, e]) = [c0, c1] := by
      rw [frame_cs_calculated, hc]
    have hre : cs_received (body ++ [c0', c1, e]) = [c0', c1] := frame_cs_received body c0' c1 e
    have hne : cs_calculated (body ++ [c0', c1, e]) ≠ cs_received (body ++ [c0', c1, e]) := by
      rw [hca, hre]
      simp [Ne.symm h0]
    rw [decode_response_checksum_mismatch _ _ _ _ hne, hca, hre]
  · have hca : cs_calculated (body ++ [c0, c1', e]) = [c0, c1] := by
      rw [frame_cs_calculated, hc]
    have hre : cs_received (body ++ [c0, c1', e]) = [c0, c1'] := frame_cs_received body c0 c1' e
    have hne : cs_calculated (body ++ [c0, c1', e]) ≠ cs_received (body ++ [c0, c1', e]) := by
      rw [hca, hre]
      simp [Ne.symm h1]
    rw [decode_response_checksum_mismatch _ _ _ _ hne, hca, hre]

set_option maxRecDepth 40000 in
theorem eot_corruption_not_detected :
    decode_response 1 35 16 rxSingleBadEOT = .ok (.int 113, 0) := by
  rfl

set_option maxRecDepth 40000 in
theorem checksum_trailer_witness :
    decode_response 1 35 16 (rxSingleBody ++ [calc_crc16 rxSingleBody % 256 + 1,
        calc_crc16 rxSingleBody / 256 % 256, 4]) =
      .error (.RxChecksum
        [calc_crc16 rxSingleBody % 256, calc_crc16 rxSingleBody / 256 % 256]
        [calc_crc16 rxSingleBody % 256 + 1, calc_crc16 rxSingleBody / 256 % 256]) :=
  (checksum_trailer_corruption 1 35 16 rxSingleBody (calc_crc16 rxSingleBody % 256)
    (calc_crc16 rxSingleBody / 256 % 256) (calc_crc16 rxSingleBody % 256 + 1)
    (calc_crc16 rxSingleBody / 256 % 256 + 1) 4 rfl
    (Nat.succ_ne_self _) (Nat.succ_ne_self _)).2.1

/-- Claim C7 (amended): decoding a truncation that cuts before the declared
end-of-body offset `8 + length byte` (including any frame of fewer than 7
bytes, whose missing length byte reads as 0) always fails, but the checksum
comparison runs first and there is no minimum-frame-size check: the failure
is the checksum error whenever the recomputed checksum mismatches the
truncated trailing bytes, and only a truncation passing the checksum
comparison fails with the length error. -/
theorem truncation_always_fails (receiver_id command command_version : Nat) (t : List Nat)
    (h : t.length ≤ 8 + fromBytesLE (pySlice t 6 7)) :
    decode_response receiver_id command command_version t =
        .error (.RxChecksum (cs_calculated t) (cs_received t)) ∨
      (cs_calculated t = cs_received t ∧
        decode_response receiver_id command command_version t =
          .error (.RxLength (fromBytesLE (pySlice t 6 7)))) := by
  by_cases hcs : cs_calculated t = cs_received t
  · right
    refine ⟨hcs, ?_⟩
    have hL8 : pyIdx t.length (8 + (fromBytesLE (pySlice t 6 7) : Int)) = t.length := by
      unfold pyIdx
      rw [if_neg (by omega)]
      omega
    have hL9 : pyIdx t.length (9 + (fromBytesLE (pySlice t 6 7) : Int)) = t.length := by
      unfold pyIdx
      rw [if_neg (by omega)]
      omega
    have hempty : pySlice t (8 + (fromBytesLE (pySlice t 6 7) : Int))
        (9 + (fromBytesLE (pySlice t 6 7) : Int)) = [] :=
      pySlice_of_start_full t _ _ hL8
    unfold decode_response frameFieldCheck
    rw [if_neg (not_not_intro hcs), hempty,
      if_pos (show ([] : List Nat) ≠ [3] by decide)]
  · left
    exact decode_response_checksum_mismatch _ _ _ _ hcs

set_option maxRecDepth 40000 in
theorem truncation_checksum_not_length :
    decode_response 1 35 16 (rxSingle.take 16) =
      .error (.RxChecksum [68, 188] [18, 113]) := by
  rfl

set_option maxRecDepth 40000 in
theorem truncation_always_fails_witness :
    (rxSingle.take 16).length ≤ 8 + fromBytesLE (pySlice (rxSingle.take 16) 6 7) ∧
    (decode_response 2 35 16 (rxSingle.take 16) =
        .error (.RxChecksum (cs_calculated (rxSingle.take 16)) (cs_received (rxSingle.take 16))) ∨
      (cs_calculated (rxSingle.take 16) = cs_received (rxSingle.take 16) ∧
        decode_response 2 35 16 (rxSingle.take 16) =
          .error (.RxLength (fromBytesLE (pySlice (rxSingle.take 16) 6 7))))) :=
  ⟨by decide, truncation_always_fails 2 35 16 (rxSingle.take 16) (by decide)⟩

set_option maxRecDepth 4000 in
theorem oversized_request_witness :
    (255 < 2 + (List.replicate 254 0).length ∧
      255 < 3 + 2 * (List.replicate 127 0).length) ∧
    send_request_tx 1 35 16 (List.replicate 254 0) = none ∧
    send_request_one_call_multi_tx 1 47 16 (List.replicate 127 0) = none :=
  ⟨⟨by norm_num, by norm_num⟩,
    oversized_request_not_sent 1 35 16 (List.replicate 254 0) (List.replicate 127 0)
      (by norm_num) (by norm_num)⟩

theorem decode_value_unknown_tag (rx : List Nat) (p : Int) (tag : Nat)
    (h : tag < 16 ∨ 23 < tag) : decode_value rx p tag = some (.int 0) := by
  have hne : tag ≠ 16 ∧ tag ≠ 17 ∧ tag ≠ 18 ∧ tag ≠ 19 ∧ tag ≠ 20 ∧ tag ≠ 21 ∧
      tag ≠ 22 ∧ tag ≠ 23 := by
    omega
  obtain ⟨a16, a17, a18, a19, a20, a21, a22, a23⟩ := hne
  simp [decode_value, a16, a17, a18, a19, a20, a21, a22, a23]

set_option maxRecDepth 40000 in
theorem unknown_tag_no_failure :
    decode_response 1 35 16 rxTag99 = .ok (.int 0, 0) := by
  rfl

/-- Claim C8 (amended): a type tag outside the eight recognized values 16-23
does not make value decoding fail — no error is raised at all; the entry
decodes to the default value 0, which is trivially recoverable per value. -/
theorem unknown_tag_recoverable (rx : List Nat) (p : Int) (tag : Nat)
    (h : tag < 16 ∨ 23 < tag) :
    decode_value rx p tag = some (.int 0) :=
  decode_value_unknown_tag rx p tag h

theorem unknown_tag_recoverable_witness :
    ((99 : Nat) < 16 ∨ 23 < 99) ∧ decode_value [1, 2, 3] 0 99 = some (.int 0) :=
  ⟨Or.inr (by decide), unknown_tag_recoverable [1, 2, 3] 0 99 (Or.inr (by decide))⟩

/-- Claim C9: a checksum-valid frame that passes every frame field check
decodes without error whatever its status byte holds: a non-zero status is
returned as ordinary data to the caller, exactly like a zero status. -/
theorem nonzero_status_not_error (receiver_id command command_version : Nat)
    (rx : List Nat) (v : UMBValue)
    (hchk : frameFieldCheck receiver_id command command_version rx = none)
    (hv : decode_value rx 14 (fromBytesLE (pySlice rx 13 14)) = some v)
    (_hs : fromBytesLE (pySlice rx 10 11) ≠ 0) :
    decode_response receiver_id command command_version rx =
      .ok (v, fromBytesLE (pySlice rx 10 11)) := by
  simp only [decode_response, hchk, hv]

set_option maxRecDepth 40000 in
theorem nonzero_status_witness :
    frameFieldCheck 1 35 16 rxStatus36 = none ∧
    fromBytesLE (pySlice rxStatus36 10 11) ≠ 0 ∧
    decode_response 1 35 16 rxStatus36 =
      .ok (.int 113, fromBytesLE (pySlice rxStatus36 10 11)) :=
  ⟨rfl, by decide,
    nonzero_status_not_error 1 35 16 rxStatus36 (.int 113) rfl rfl (by decide)⟩

/-- Claim C10: an entry whose type tag lies outside 16-23 decodes without
error to the default value 0 while the status byte is still read from the
frame; in the multi walk both cursors still advance by sub-length + 1, so
the remaining entries are decoded. -/
theorem out_of_range_tag_default (receiver_id command command_version : Nat)
    (rx : List Nat)
    (hchk : frameFieldCheck receiver_id command command_version rx = none)
    (htag : fromBytesLE (pySlice rx 13 14) < 16 ∨ 23 < fromBytesLE (pySlice rx 13 14)) :
    decode_response receiver_id command command_version rx =
      .ok (.int 0, fromBytesLE (pySlice rx 10 11)) ∧
    ∀ (n : Nat) (i p : Int),
      (fromBytesLE (pySlice rx i (i + 1)) < 16 ∨ 23 < fromBytesLE (pySlice rx i (i + 1))) →
      multi_walk rx (n + 1) i p =
        (multi_walk rx n (i + (fromBytesLE (pySlice rx (i - 4) (i + 1 - 4)) : Int) + 1)
            (p + (fromBytesLE (pySlice rx (i - 4) (i + 1 - 4)) : Int) + 1)).map
          fun r => (.int 0 :: r.1, fromBytesLE (pySlice rx (i - 3) (i + 1 - 3)) :: r.2) := by
  constructor
  · simp only [decode_response, hchk, decode_value_unknown_tag rx 14 _ htag]
  · intro n i p htag'
    simp only [multi_walk, decode_value_unknown_tag rx p _ htag']
    cases multi_walk rx n (i + (fromBytesLE (pySlice rx (i - 4) (i + 1 - 4)) : Int) + 1)
        (p + (fromBytesLE (pySlice rx (i - 4) (i + 1 - 4)) : Int) + 1) with
    | none => rfl
    | some r => cases r; rfl

set_option maxRecDepth 40000 in
theorem out_of_range_tag_witness :
    frameFieldCheck 1 35 16 rxTag99 = none ∧
    (fromBytesLE (pySlice rxTag99 13 14) < 16 ∨ 23 < fromBytesLE (pySlice rxTag99 13 14)) ∧
    decode_response 1 35 16 rxTag99 =
      .ok (.int 0, fromBytesLE (pySlice rxTag99 10 11)) :=
  ⟨rfl, Or.inr (by decide),
    (out_of_range_tag_default 1 35 16 rxTag99 rfl (Or.inr (by decide))).1⟩

/-- Claim C2: the single-channel query transmits command 35,
command-version 16, with the channel encoded as its 2-byte little-endian
payload; every successful decode takes its status byte from frame offset
10, its type tag from offset 13, and its value from the bytes at offset 14
on, interpreted little-endian with the tag's declared width, signedness and
integer/float kind; in particular tag 18 over bytes [0x71, 0x00] yields
113. -/
theorem onlineDataQuery_correct (channel receiver_id : Nat)
    (h1 : channel < 65536) (_h2 : receiver_id < 256) :
    onlineDataQuery_tx channel receiver_id =
      send_request_tx receiver_id 35 16 (leBytes 2 channel) ∧
    (∀ rx v s, decode_response receiver_id 35 16 rx = .ok (v, s) →
      s = fromBytesLE (pySlice rx 10 11) ∧
      decode_value rx 14 (fromBytesLE (pySlice rx 13 14)) = some v) ∧
    decode_value [0x71, 0x00] 0 18 = some (.int 113) := by
  refine ⟨?_, ?_, by rfl⟩
  · unfold onlineDataQuery_tx
    rw [toBytesLE?_of_lt 2 channel (lt_of_lt_of_eq h1 (by norm_num))]
    rfl
  · intro rx v s h
    cases hf : frameFieldCheck receiver_id 35 16 rx with
    | some e => simp [decode_response, hf] at h
    | none =>
      cases hv : decode_value rx 14 (fromBytesLE (pySlice rx 13 14)) with
      | none => simp [decode_response, hf, hv] at h
      | some v' =>
        simp only [decode_response, hf, hv, Except.ok.injEq, Prod.mk.injEq] at h
        obtain ⟨hvv, hss⟩ := h
        exact ⟨hss.symm, congrArg some hvv⟩


set_option maxRecDepth 40000 in
theorem onlineDataQuery_witness :
    (113 < 65536 ∧ 1 < 256) ∧
    onlineDataQuery_tx 113 1 = send_request_tx 1 35 16 (leBytes 2 113) ∧
    decode_value [0x71, 0x00] 0 18 = some (.int 113) :=
  ⟨⟨by decide, by decide⟩,
    (onlineDataQuery_correct 113 1 (by decide) (by decide)).1,
    (onlineDataQuery_correct 113 1 (by decide) (by decide)).2.2⟩

/-- Claim C3: every transmitted frame is, in order, SOH 0x01, version 0x10,
destination id, destination class 0x70, source id 1, source class 0xF0, a
length byte equal to 2 plus the payload byte count, STX 0x02, command,
command-version, the payload, ETX 0x03, the CRC-16 of all preceding bytes
as 2 little-endian bytes, and EOT 0x04; command 35 carries the 2-byte
channel id as payload, and the command-47 encoder produces exactly the
frame of the generic encoder on a count byte followed by the channels as
2-byte little-endian values in input order. -/
theorem tx_frame_layout (receiver_id command command_version channel : Nat)
    (payload channels : List Nat)
    (h1 : receiver_id < 256) (h2 : 2 + payload.length ≤ 255)
    (h3 : command < 256) (h4 : command_version < 256) (h5 : channel < 65536)
    (h6 : ∀ ch ∈ channels, ch < 65536) :
    send_request_tx receiver_id command command_version payload =
      some (([1, 0x10, receiver_id, 0x70, 1, 0xF0, 2 + payload.length, 2, command,
          command_version] ++ payload ++ [3]) ++
        leBytes 2 (calc_crc16 ([1, 0x10, receiver_id, 0x70, 1, 0xF0, 2 + payload.length,
          2, command, command_version] ++ payload ++ [3])) ++ [4]) ∧
    onlineDataQuery_tx channel receiver_id =
      send_request_tx receiver_id 35 16 (leBytes 2 channel) ∧
    send_request_one_call_multi_tx receiver_id command command_version channels =
      send_request_tx receiver_id command command_version
        (channels.length :: (channels.map (leBytes 2)).flatten) := by
  refine ⟨?_, ?_, ?_⟩
  · unfold send_request_tx
    rw [toBytesLE?_of_lt 1 receiver_id (by simpa using h1),
      toBytesLE?_of_lt 1 (2 + payload.length) (by simp only [pow_one]; omega),
      toBytesLE?_of_lt 1 command (by simpa using h3),
      toBytesLE?_of_lt 1 command_version (by simpa using h4),
      leBytes_one_of_lt receiver_id h1, leBytes_one_of_lt (2 + payload.length) (by omega),
      leBytes_one_of_lt command h3, leBytes_one_of_lt command_version h4]
    rfl
  · unfold onlineDataQuery_tx
    rw [toBytesLE?_of_lt 2 channel (lt_of_lt_of_eq h5 (by norm_num))]
    rfl
  · have hcb : channelsBytes channels = some ((channels.map (leBytes 2)).flatten) :=
      channelsBytes_of_valid h6
    unfold send_request_one_call_multi_tx send_request_tx
    rw [hcb]
    by_cases hN : channels.length < 256
    · have hlen : 2 + (channels.length :: (channels.map (leBytes 2)).flatten).length
          = 3 + ((channels.map (leBytes 2)).flatten).length := by
        simp only [List.length_cons]
        omega
      rw [toBytesLE?_of_lt 1 channels.length (by simpa using hN),
        leBytes_one_of_lt channels.length hN, hlen]
      rfl
    · have hnum : toBytesLE? 1 channels.length = none :=
        toBytesLE?_of_ge 1 channels.length (by simpa using hN)
      have hlen2 : toBytesLE? 1
          (2 + (channels.length :: (channels.map (leBytes 2)).flatten).length) = none :=
        toBytesLE?_of_ge 1 _ (by
          simp only [pow_one, List.length_cons, join_map_leBytes_length]
          omega)
      rw [hnum, hlen2]
      cases toBytesLE? 1 receiver_id <;> rfl

set_option maxRecDepth 40000 in
theorem tx_frame_layout_witness :
    send_request_tx 1 47 16 [2, 113, 0, 22, 18] =
      some (([1, 0x10, 1, 0x70, 1, 0xF0, 2 + ([2, 113, 0, 22, 18] : List Nat).length, 2, 47,
          16] ++ [2, 113, 0, 22, 18] ++ [3]) ++
        leBytes 2 (calc_crc16 ([1, 0x10, 1, 0x70, 1, 0xF0,
          2 + ([2, 113, 0, 22, 18] : List Nat).length, 2, 47, 16] ++
          [2, 113, 0, 22, 18] ++ [3])) ++ [4]) ∧
    send_request_one_call_multi_tx 1 47 16 [113, 4630] =
      send_request_tx 1 47 16
        (([113, 4630] : List Nat).length :: (([113, 4630] : List Nat).map (leBytes 2)).flatten) := by
  have h := tx_frame_layout 1 47 16 113 [2, 113, 0, 22, 18] [113, 4630]
    (by decide) (by decide) (by decide) (by decide) (by decide) (by decide)
  exact ⟨h.1, h.2.2⟩

theorem valueCursorFrom_eq (rx : List Nat) :
    ∀ (k : Nat) (i : Int), valueCursorFrom rx i (i + 1) k = headerCursorFrom rx i k + 1 := by
  intro k
  induction k with
  | zero => intro i; rfl
  | succ k ih =>
    intro i
    show valueCursorFrom rx (i + (fromBytesLE (pySlice rx (i - 4) (i + 1 - 4)) : Int) + 1)
        (i + 1 + (fromBytesLE (pySlice rx (i - 4) (i + 1 - 4)) : Int) + 1) k
      = headerCursorFrom rx i (k + 1) + 1
    have harg : i + 1 + (fromBytesLE (pySlice rx (i - 4) (i + 1 - 4)) : Int) + 1
        = (i + (fromBytesLE (pySlice rx (i - 4) (i + 1 - 4)) : Int) + 1) + 1 := by ring
    rw [harg]
    exact ih (i + (fromBytesLE (pySlice rx (i - 4) (i + 1 - 4)) : Int) + 1)

theorem multi_walk_spec (rx : List Nat) :
    ∀ (n : Nat) (i : Int) (vs : List UMBValue) (ss : List Nat),
      multi_walk rx n i (i + 1) = some (vs, ss) →
      vs.length = n ∧ ss.length = n ∧
      ∀ k, k < n →
        ss.get? k = some (fromBytesLE (pySlice rx (headerCursorFrom rx i k - 3)
          (headerCursorFrom rx i k + 1 - 3))) ∧
        vs.get? k = decode_value rx (headerCursorFrom rx i k + 1)
          (fromBytesLE (pySlice rx (headerCursorFrom rx i k)
            (headerCursorFrom rx i k + 1))) := by
  intro n
  induction n with
  | zero =>
    intro i vs ss h
    simp only [multi_walk, Option.some.injEq, Prod.mk.injEq] at h
    obtain ⟨hv, hs⟩ := h
    subst hv
    subst hs
    exact ⟨rfl, rfl, fun k hk => absurd hk (Nat.not_lt_zero k)⟩
  | succ n ih =>
    intro i vs ss h
    simp only [multi_walk] at h
    cases hv : decode_value rx (i + 1) (fromBytesLE (pySlice rx i (i + 1))) with
    | none => rw [hv] at h; simp at h
    | some v =>
      rw [hv] at h
      have harg : i + 1 + (fromBytesLE (pySlice rx (i - 4) (i + 1 - 4)) : Int) + 1
          = (i + (fromBytesLE (pySlice rx (i - 4) (i + 1 - 4)) : Int) + 1) + 1 := by ring
      rw [harg] at h
      cases hw : multi_walk rx n (i + (fromBytesLE (pySlice rx (i - 4) (i + 1 - 4)) : Int) + 1)
          ((i + (fromBytesLE (pySlice rx (i - 4) (i + 1 - 4)) : Int) + 1) + 1) with
      | none => rw [hw] at h; simp at h
      | some pr =>
        obtain ⟨vs', ss'⟩ := pr
        rw [hw] at h
        simp only [Option.some.injEq, Prod.mk.injEq] at h
        obtain ⟨hvs, hss⟩ := h
        subst hvs
        subst hss
        obtain ⟨hl1, hl2, hidx⟩ :=
          ih (i + (fromBytesLE (pySlice rx (i - 4) (i + 1 - 4)) : Int) + 1) vs' ss' hw
        refine ⟨by simp [hl1], by simp [hl2], ?_⟩
        intro k hk
        cases k with
        | zero => exact ⟨rfl, hv.symm⟩
        | succ k => exact hidx k (Nat.lt_of_succ_lt_succ hk)

/-- Claim C1: the one-call multi query decode (command 47, command-version
16) walks the validated frame with a header cursor starting at byte offset
16 and a value cursor starting at offset 17; entry k reads its status byte
at headerCursor - 3, its sub-length byte at headerCursor - 4 and its type
tag byte at headerCursor, decodes its value at the value cursor with the
tag's declared width, and both cursors advance by sub-length + 1; the
returned value and status sequences have exactly one entry per requested
channel, in input order, so duplicate input channels yield duplicate
independent output entries. -/
theorem oneCallMulti_walk_correct (channels : List Nat) (receiver_id : Nat)
    (rx : List Nat) (vs : List UMBValue) (ss : List Nat)
    (h : decode_multi_response receiver_id 47 16 channels.length rx = .ok (vs, ss)) :
    vs.length = channels.length ∧ ss.length = channels.length ∧
    headerCursor rx 0 = 16 ∧ valueCursor rx 0 = 17 ∧
    (∀ k, valueCursor rx k = headerCursor rx k + 1) ∧
    ∀ k, k < channels.length →
      ss.get? k = some (fromBytesLE (pySlice rx (headerCursor rx k - 3)
        (headerCursor rx k + 1 - 3))) ∧
      vs.get? k = decode_value rx (valueCursor rx k)
        (fromBytesLE (pySlice rx (headerCursor rx k) (headerCursor rx k + 1))) := by
  have h17 : (17 : Int) = 16 + 1 := by norm_num
  have hw : multi_walk rx channels.length 16 17 = some (vs, ss) := by
    cases hf : frameFieldCheck receiver_id 47 16 rx with
    | some e => simp [decode_multi_response, hf] at h
    | none =>
      cases hw' : multi_walk rx channels.length 16 17 with
      | none => simp [decode_multi_response, hf, hw'] at h
      | some pr =>
        simp only [decode_multi_response, hf, hw', Except.ok.injEq] at h
        rw [h]
  rw [h17] at hw
  obtain ⟨hl1, hl2, hidx⟩ := multi_walk_spec rx channels.length 16 vs ss hw
  have hvc : ∀ k, valueCursor rx k = headerCursor rx k + 1 := by
    intro k
    unfold valueCursor headerCursor
    rw [h17]
    exact valueCursorFrom_eq rx k 16
  refine ⟨hl1, hl2, rfl, rfl, hvc, ?_⟩
  intro k hk
  obtain ⟨hstat, hval⟩ := hidx k hk
  refine ⟨hstat, ?_⟩
  rw [hvc k]
  exact hval

set_option maxRecDepth 40000 in
theorem oneCallMulti_walk_witness :
    decode_multi_response 1 47 16 ([113, 113] : List Nat).length rxMulti =
      .ok ([.int 113, .int 4630], [0, 0]) ∧
    ([UMBValue.int 113, UMBValue.int 4630] : List UMBValue).length
      = ([113, 113] : List Nat).length ∧
    ([0, 0] : List Nat).length = ([113, 113] : List Nat).length := by
  have hd : decode_multi_response 1 47 16 ([113, 113] : List Nat).length rxMulti =
      .ok ([.int 113, .int 4630], [0, 0]) := by rfl
  have h := oneCallMulti_walk_correct [113, 113] 1 rxMulti [.int 113, .int 4630] [0, 0] hd
  exact ⟨hd, h.1, h.2.1⟩

end LufftUMB
